import Mathlib

set_option autoImplicit false

/-!
Shallow embedding of the core of pawatOrbit/go-template-v1: the sliding-window
rate limiter (core/ratelimit/ratelimit.go), the response-cache middleware and
the Redis-backed cache service (core/cache), and the rate-limiter selection in
server construction (internal/server/httpserver.go).

Time instants and durations (`time.Time`, `time.Duration`) are modelled as
plain `Int` ticks; Go `int` values are modelled as `Int`.  Byte slices are
modelled as `List Nat` with every element below 256.
-/

namespace GoTemplate

/-- Go helper `max(a, b int) int` at the bottom of core/ratelimit/ratelimit.go. -/
def goMax (a b : Int) : Int := if a > b then a else b

/-- An HTTP request as read by the middlewares: method, URL path, raw query
string and the header multimap. -/
structure Request where
  method : String
  path : String
  rawQuery : String
  headers : List (String × List String)

/-- Model of `http.Header.Get`: the first value recorded for the key, or `""` when the
key is absent or has no values. -/
def headerGet (hs : List (String × List String)) (name : String) : String :=
  match hs.lookup name with
  | some (v :: _) => v
  | _ => ""

namespace Ratelimit

/-- The `ratelimit.Config` structure (core/ratelimit/ratelimit.go).  `Window` and durations
are `Int` ticks; `KeyBuilder` and `SkipFunc` are function fields as in Go,
with `SkipFunc == nil` modelled by `none`. -/
structure Config where
  requests : Int
  window : Int
  skipPaths : List String
  keyBuilder : Request → String
  skipFunc : Option (Request → Bool)
  includeHeaders : Bool
  message : String
  statusCode : Int

/-- The `ratelimit.Result` value object produced by every `Allow` call. -/
structure Result where
  allowed : Bool
  limit : Int
  remaining : Int
  resetTime : Int
  retryAfter : Int
deriving DecidableEq, Repr

/-- The in-memory store of `memoryLimiter`: the key → `windowCounter` map,
each counter being the ordered list of request timestamps. -/
def Store := List (String × List Int)

/-- Reading a counter out of the map: a missing key behaves as the fresh
empty counter that `memoryLimiter.Allow` would insert. -/
def storeGet (store : Store) (key : String) : List Int :=
  (List.lookup key store).getD []

/-- Replacing the counter bound to `key` (at most one binding per key). -/
def storeSet (store : Store) (key : String) (l : List Int) : Store :=
  (key, l) :: List.filter (fun p => !(p.1 == key)) store

/-- The eviction step of `memoryLimiter.Allow`: keep exactly the timestamps
`req` with `req.After(windowStart)`, i.e. strictly inside the window. -/
def memoryValidRequests (cfg : Config) (counter : List Int) (now : Int) : List Int :=
  counter.filter (fun req => decide (now - cfg.window < req))

/-- The outcome of one `memoryLimiter.Allow` call on a single counter: the
returned triple `(allowed, *Result, error)` plus the counter it leaves behind. -/
structure AllowOutcome where
  allowed : Bool
  result : Result
  error : Option String
  counter : List Int

/-- Model of `memoryLimiter.Allow` (core/ratelimit/ratelimit.go, lines 146–191) acting
on the counter for one key: evict, admit iff the remaining count is below the
limit, append `now` when admitted, and build the `Result` exactly as the
source does (including the `RetryAfter` fallthrough when the post-eviction
counter is empty, where the zero value 0 is returned). -/
def memoryLimiterAllow (cfg : Config) (counter : List Int) (now : Int) : AllowOutcome :=
  let validRequests := memoryValidRequests cfg counter now
  let allowed := decide ((validRequests.length : Int) < cfg.requests)
  let requests := if allowed then validRequests ++ [now] else validRequests
  let retryAfter :=
    if !allowed && decide (0 < requests.length) then
      requests.headD 0 + cfg.window - now
    else 0
  { allowed := allowed
    result :=
      { allowed := allowed
        limit := cfg.requests
        remaining := goMax 0 (cfg.requests - (requests.length : Int))
        resetTime := now + cfg.window
        retryAfter := retryAfter }
    error := none
    counter := requests }

/-- Store-level `memoryLimiter.Allow`: fetch (or create) the counter
for `key`, run the per-counter step, and write the mutated counter back. -/
def memoryAllow (cfg : Config) (store : Store) (key : String) (now : Int) :
    AllowOutcome × Store :=
  let out := memoryLimiterAllow cfg (storeGet store key) now
  (out, storeSet store key out.counter)

/-- Model of `memoryLimiter.Reset` (lines 199–204): delete the key from the map and
return a nil error. -/
def memoryReset (store : Store) (key : String) : Store × Option String :=
  (List.filter (fun p => !(p.1 == key)) store, none)

/-- Run a sequence of `Allow` calls (key, now) against a fresh in-memory
limiter, collecting each call's `(allowed, remaining)` pair. -/
def allowCalls (cfg : Config) : Store → List (String × Int) → List (Bool × Int)
  | _, [] => []
  | store, (key, now) :: rest =>
    let (out, store') := memoryAllow cfg store key now
    (out.allowed, out.result.remaining) :: allowCalls cfg store' rest

/-- The eviction step of `redisLimiter.Allow`:
`ZRemRangeByScore(key, "0", windowStart.UnixNano())` removes every member
whose score lies in the closed range `[0, windowStart]`. -/
def redisAfterRemove (cfg : Config) (entries : List Int) (now : Int) : List Int :=
  entries.filter (fun t => !(decide (0 ≤ t) && decide (t ≤ now - cfg.window)))

/-- Model of `redisLimiter.Allow` (core/ratelimit/ratelimit.go, lines 100–143) on the
sorted set for one key, with the pipeline assumed to succeed: remove old
entries, count (`ZCard` observes the count before the add), unconditionally
`ZAdd` the current timestamp, and build the `Result` with
`RetryAfter = Window` (set both in the literal and again when denied). -/
def redisLimiterAllow (cfg : Config) (entries : List Int) (now : Int) :
    AllowOutcome :=
  let afterRemove := redisAfterRemove cfg entries now
  let currentCount := afterRemove.length
  let afterAdd := if afterRemove.contains now then afterRemove else afterRemove ++ [now]
  let allowed := decide ((currentCount : Int) < cfg.requests)
  { allowed := allowed
    result :=
      { allowed := allowed
        limit := cfg.requests
        remaining := goMax 0 (cfg.requests - (currentCount : Int) - 1)
        resetTime := now + cfg.window
        retryAfter := cfg.window }
    error := none
    counter := afterAdd }

/-- Model of `shouldSkip` (core/ratelimit/ratelimit.go, lines 273–288): the custom skip
function, then exact or `/*`-prefix matches against `SkipPaths`. -/
def shouldSkip (r : Request) (config : Config) : Bool :=
  (match config.skipFunc with
   | some f => f r
   | none => false) ||
  config.skipPaths.any (fun path =>
    path == r.path ||
      (path.endsWith "/*" && r.path.startsWith (path.dropRight 2)))

/-- The response the rate-limit middleware writes or forwards: status code,
headers and a textual body. -/
structure RLResponse where
  status : Int
  headers : List (String × List String)
  body : String
deriving DecidableEq, Repr

/-- Which branch of `ratelimit.Middleware` handled the request. -/
inductive MWOutcome
  | skipped
  | failOpen
  | denied
  | passed
deriving DecidableEq, Repr

/-- The headers `Middleware` sets when `IncludeHeaders` is on. -/
def rateLimitHeaders (result : Result) (allowed : Bool) : List (String × List String) :=
  [("X-RateLimit-Limit", [toString result.limit]),
   ("X-RateLimit-Remaining", [toString result.remaining]),
   ("X-RateLimit-Reset", [toString result.resetTime])] ++
  (if !allowed then [("Retry-After", [toString result.retryAfter])] else [])

/-- The JSON body written when the limit is exceeded:
`fmt.Fprintf(w, "\x7b\"error\": \"%s\", \"retry_after\": %d\x7d", ...)`. -/
def rateLimitedBody (config : Config) (result : Result) : String :=
  "\x7b\"error\": \"" ++ config.message ++ "\", \"retry_after\": " ++
    toString result.retryAfter ++ "\x7d"

/-- Model of `ratelimit.Middleware` (lines 207–270) for one request, with the limiter
call's outcome passed in as `allowRes` (`Except` models the Go error) and the
downstream handler's response as `downstream`: skip check, fail-open on a
limiter error, a 429-style response when denied, otherwise pass through with
the rate-limit headers prepended. -/
def Middleware (config : Config) (r : Request)
    (allowRes : Except String (Bool × Result)) (downstream : RLResponse) :
    RLResponse × MWOutcome :=
  if shouldSkip r config then (downstream, .skipped)
  else
    match allowRes with
    | .error _ => (downstream, .failOpen)
    | .ok (allowed, result) =>
      let hdrs := if config.includeHeaders then rateLimitHeaders result allowed else []
      if !allowed then
        ({ status := config.statusCode
           headers := hdrs ++ [("Content-Type", ["application/json"])]
           body := rateLimitedBody config result }, .denied)
      else
        ({ downstream with headers := hdrs ++ downstream.headers }, .passed)

/-- The memory limiter's `Allow` return value packaged the way `Middleware`
consumes it: a Go `(bool, *Result, error)` triple becomes `.error` when the
error is non-nil and `.ok` otherwise. -/
def memoryAllowExcept (cfg : Config) (store : Store) (key : String) (now : Int) :
    Except String (Bool × Result) :=
  match (memoryAllow cfg store key now).1.error with
  | some e => .error e
  | none => .ok ((memoryAllow cfg store key now).1.allowed, (memoryAllow cfg store key now).1.result)

end Ratelimit

namespace ServerInit

/-- Which rate-limiter variant `NewHttpServer` constructs. -/
inductive LimiterKind
  | redis
  | memory
deriving DecidableEq, Repr

/-- Model of `cache.InitRedisService` (core/cache service file): under `sync.Once`, the
global `redisInstance` is assigned `NewRedisService(config)` first and only
then pinged; a failed ping is logged and returned as the error, but the
instance assignment stands.  A later call finds the `Once` spent and returns
nil.  The global is `Option Unit` (`none` = not yet initialized), and
`reachable` says whether the 5-second ping would succeed. -/
def InitRedisService (inst : Option Unit) (reachable : Bool) :
    Option Unit × Option String :=
  match inst with
  | some s => (some s, none)
  | none => (some (), if reachable then none else some "redis ping error")

/-- The rate-limit setup of `NewHttpServer` (internal/server/httpserver.go,
lines 39–54) with `cfg.RateLimit.Enabled` true: call `InitRedisService`, log
the error if any, then pick the Redis limiter iff `GetRedisService()` (the
global instance) is non-nil, else the memory limiter. -/
def selectLimiterKind (inst : Option Unit) (reachable : Bool) :
    LimiterKind × Option Unit :=
  let initRes := InitRedisService inst reachable
  match initRes.1 with
  | some _ => (.redis, initRes.1)
  | none => (.memory, initRes.1)

end ServerInit

namespace Cache

/-- The standard base64 alphabet used by `encoding/json` for `[]byte` fields. -/
def base64Alphabet : List Char :=
  ['A','B','C','D','E','F','G','H','I','J','K','L','M','N','O','P',
   'Q','R','S','T','U','V','W','X','Y','Z','a','b','c','d','e','f',
   'g','h','i','j','k','l','m','n','o','p','q','r','s','t','u','v',
   'w','x','y','z','0','1','2','3','4','5','6','7','8','9','+','/']

/-- The character for a sextet value. -/
def b64chr (n : Nat) : Char := base64Alphabet.getD n 'A'

/-- The sextet value of an alphabet character, `none` outside the alphabet. -/
def b64idx (c : Char) : Option Nat := base64Alphabet.findIdx? (fun a => a == c)

/-- Standard base64 of a byte sequence, three bytes to four characters with
`=` padding. -/
def base64Encode : List Nat → List Char
  | [] => []
  | [b1] => [b64chr (b1 / 4), b64chr (b1 % 4 * 16), '=', '=']
  | [b1, b2] => [b64chr (b1 / 4), b64chr (b1 % 4 * 16 + b2 / 16), b64chr (b2 % 16 * 4), '=']
  | b1 :: b2 :: b3 :: rest =>
    b64chr (b1 / 4) :: b64chr (b1 % 4 * 16 + b2 / 16) ::
      b64chr (b2 % 16 * 4 + b3 / 64) :: b64chr (b3 % 64) :: base64Encode rest

/-- Standard base64 decoding, four characters to three bytes, handling the two
padded terminal chunk forms; `none` on malformed input. -/
def base64Decode : List Char → Option (List Nat)
  | [] => some []
  | c1 :: c2 :: c3 :: c4 :: rest =>
    if c3 == '=' && c4 == '=' && rest.isEmpty then
      match b64idx c1, b64idx c2 with
      | some s1, some s2 => some [s1 * 4 + s2 / 16]
      | _, _ => none
    else if c4 == '=' && rest.isEmpty then
      match b64idx c1, b64idx c2, b64idx c3 with
      | some s1, some s2, some s3 => some [s1 * 4 + s2 / 16, s2 % 16 * 16 + s3 / 4]
      | _, _, _ => none
    else
      match b64idx c1, b64idx c2, b64idx c3, b64idx c4, base64Decode rest with
      | some s1, some s2, some s3, some s4, some tail =>
        some ((s1 * 4 + s2 / 16) :: (s2 % 16 * 16 + s3 / 4) :: (s3 % 4 * 64 + s4) :: tail)
      | _, _, _, _, _ => none
  | _ => none

/-- A JSON document, the level at which `encoding/json` marshals and
unmarshals values (the byte-level printing of this tree is the stdlib's). -/
inductive Json where
  | num (n : Int)
  | str (s : String)
  | arr (xs : List Json)
  | obj (fields : List (String × Json))

/-- The `cachedResponseData` record (cache middleware file): one captured HTTP response.
`Timestamp` is an `Int` instant. -/
structure CachedResponseData where
  statusCode : Int
  headers : List (String × List String)
  body : List Nat
  timestamp : Int
deriving DecidableEq, Repr

/-- Marshal one header value list (`[]string`) to a JSON array of strings. -/
def stringsToJson (vs : List String) : List Json := vs.map Json.str

/-- Read back a JSON array of strings. -/
def jsonToStrings : List Json → Option (List String)
  | [] => some []
  | Json.str s :: rest => (jsonToStrings rest).map (fun tail => s :: tail)
  | _ => none

/-- Marshal an `http.Header` (string → []string map) to a JSON object. -/
def headersToJson (hs : List (String × List String)) : Json :=
  Json.obj (hs.map (fun p => (p.1, Json.arr (stringsToJson p.2))))

/-- Read back a marshalled header map. -/
def jsonToHeaders : List (String × Json) → Option (List (String × List String))
  | [] => some []
  | (k, Json.arr vs) :: rest =>
    match jsonToStrings vs, jsonToHeaders rest with
    | some ss, some tail => some ((k, ss) :: tail)
    | _, _ => none
  | _ => none

/-- Model of `json.Marshal` on a `cachedResponseData` value: the four tagged fields,
with the `[]byte` body emitted as a base64 string. -/
def marshalCachedResponse (d : CachedResponseData) : Json :=
  Json.obj
    [("status_code", Json.num d.statusCode),
     ("headers", headersToJson d.headers),
     ("body", Json.str (String.mk (base64Encode d.body))),
     ("timestamp", Json.num d.timestamp)]

/-- Model of `json.Unmarshal` into a `cachedResponseData`: field lookup by tag, with
the body decoded from base64; `none` on any shape mismatch (the middleware
treats that as a miss). -/
def unmarshalCachedResponse : Json → Option CachedResponseData
  | Json.obj fields =>
    match List.lookup "status_code" fields, List.lookup "headers" fields,
        List.lookup "body" fields, List.lookup "timestamp" fields with
    | some (Json.num status), some (Json.obj hs), some (Json.str b), some (Json.num ts) =>
      match jsonToHeaders hs, base64Decode b.data with
      | some headers, some body => some ⟨status, headers, body, ts⟩
      | _, _ => none
    | _, _, _, _ => none
  | _ => none

/-- The backing key-value store holding marshalled JSON payloads (at most one
binding per key; `Set` overwrites). -/
def CacheStore := List (String × Json)

/-- Model of `cacheResponse` / `SetJSON`: marshal and store under the key. -/
def cacheResponse (store : CacheStore) (key : String) (d : CachedResponseData) :
    CacheStore :=
  (key, marshalCachedResponse d) :: List.filter (fun p => !(p.1 == key)) store

/-- Model of `getCachedResponse` / `GetJSON`: fetch the payload and unmarshal it;
a missing key or a malformed payload yields `none` (an error in Go). -/
def getCachedResponse (store : CacheStore) (key : String) :
    Option CachedResponseData :=
  match List.lookup key store with
  | some j => unmarshalCachedResponse j
  | none => none

/-- The `CacheMiddlewareConfig` structure (cache middleware file).  The key-builder field is
passed to the middleware model separately, since the default builder's md5
digest is a crypto-stdlib collaborator. -/
structure CacheMiddlewareConfig where
  defaultTTL : Int
  skipCache : List (Request → Bool)
  onlyMethods : List String
  skipPaths : List String

/-- Model of `SkipAuthenticatedRequests`: skip caching when the request carries a
non-empty `Authorization` header. -/
def SkipAuthenticatedRequests (r : Request) : Bool :=
  headerGet r.headers "Authorization" != ""

/-- Model of `DefaultCacheMiddlewareConfig`: 5-minute TTL (in second ticks), GET only,
the health/metrics skip paths, and the authenticated-request skip predicate. -/
def DefaultCacheMiddlewareConfig : CacheMiddlewareConfig :=
  { defaultTTL := 5 * 60
    onlyMethods := ["GET"]
    skipPaths := ["/health", "/health/*", "/metrics"]
    skipCache := [SkipAuthenticatedRequests] }

/-- The defaulting `CacheMiddleware` performs on its config before use. -/
def normalizeConfig (config : CacheMiddlewareConfig) : CacheMiddlewareConfig :=
  { config with
    onlyMethods := if config.onlyMethods.isEmpty then ["GET"] else config.onlyMethods
    defaultTTL := if config.defaultTTL == 0 then 5 * 60 else config.defaultTTL }

/-- Model of `shouldCache` (cache middleware file, lines 415–443): the method
allow-list, then the skip paths (exact or `/*`-prefix), then the custom skip
predicates; cache only when all three checks pass. -/
def shouldCache (r : Request) (config : CacheMiddlewareConfig) : Bool :=
  let methodAllowed := config.onlyMethods.any (fun method => r.method == method)
  if !methodAllowed then false
  else if config.skipPaths.any (fun path =>
      path == r.path ||
        (path.endsWith "/*" && r.path.startsWith (path.dropRight 2))) then false
  else if config.skipCache.any (fun f => f r) then false
  else true

/-- An HTTP response as the cache middleware sees it: status, headers, body
bytes. -/
structure HttpResponse where
  status : Int
  headers : List (String × List String)
  body : List Nat
deriving DecidableEq, Repr

/-- Which terminal state of the middleware's per-request state machine was
reached. -/
inductive CacheOutcome
  | passthrough
  | hit
  | stored
  | storeFailed
  | missNoStore
deriving DecidableEq, Repr

/-- Model of `serveCachedResponse`: replay the cached headers, add the two diagnostic
headers (`X-Cache-Time` shown as the captured instant), then status and body. -/
def serveCachedResponse (cached : CachedResponseData) : HttpResponse :=
  { status := cached.statusCode
    headers := cached.headers ++
      [("X-Cache", ["HIT"]), ("X-Cache-Time", [toString cached.timestamp])]
    body := cached.body }

/-- One request through `CacheMiddleware` (cache middleware file, lines
352–412).  `keyBuilder` is the configured key function; `lookupErr` injects a
backend failure on the `GetJSON` lookup and `storeErr` one on the `SetJSON`
store; `handler` is the downstream handler's response (its status and body as
captured by `responseCapture`, its headers as left in `w.Header()`), `now`
the capture instant.  Returns the response sent to the client, the resulting
store, and the terminal state. -/
def CacheMiddlewareRun (config : CacheMiddlewareConfig) (keyBuilder : Request → String)
    (store : CacheStore) (r : Request) (lookupErr storeErr : Bool)
    (handler : HttpResponse) (now : Int) :
    HttpResponse × CacheStore × CacheOutcome :=
  let config := normalizeConfig config
  if !(shouldCache r config) then (handler, store, .passthrough)
  else
    let cacheKey := keyBuilder r
    match if lookupErr then none else getCachedResponse store cacheKey with
    | some cached => (serveCachedResponse cached, store, .hit)
    | none =>
      if decide (200 ≤ handler.status) && decide (handler.status < 300) then
        let captured : CachedResponseData :=
          { statusCode := handler.status
            headers := handler.headers
            body := handler.body
            timestamp := now }
        if storeErr then (handler, store, .storeFailed)
        else (handler, cacheResponse store cacheKey captured, .stored)
      else (handler, store, .missNoStore)

end Cache

open Ratelimit ServerInit Cache

/-- A concrete configuration for the spec's scenario: limit 5, window one
minute (60 second ticks). -/
def scenarioConfig : Config :=
  { requests := 5, window := 60, skipPaths := [], keyBuilder := fun _ => "k"
    skipFunc := none, includeHeaders := true, message := "Rate limit exceeded"
    statusCode := 429 }

/-- A concrete configuration exercising the Redis limiter: limit 1, window
100 ticks. -/
def testRedisConfig : Config :=
  { requests := 1, window := 100, skipPaths := [], keyBuilder := fun _ => "k"
    skipFunc := none, includeHeaders := true, message := "m", statusCode := 429 }

/-- A configuration with `Requests = 0` (a zero-valued field the limiter
constructors accept unchanged): every call is denied. -/
def zeroConfig : Config :=
  { requests := 0, window := 60, skipPaths := [], keyBuilder := fun _ => "k"
    skipFunc := none, includeHeaders := true, message := "m", statusCode := 429 }

/-- A GET request carrying an `Authorization` header. -/
def authedRequest : Request :=
  ⟨"GET", "/items", "", [("Authorization", ["Bearer token"])]⟩

/-- A plain successful handler response. -/
def okResponse : HttpResponse :=
  ⟨200, [("Content-Type", ["application/json"])], [111, 107]⟩

/-- A concrete captured response used to exercise the cache roundtrip. -/
def sampleCachedResponse : CachedResponseData :=
  ⟨200, [("Content-Type", ["application/json"])], [104, 105], 0⟩

/-- Inverting the character table: within the alphabet's 64 entries, the
index of the character of a sextet is that sextet. -/
theorem b64idx_b64chr : ∀ n < 64, b64idx (b64chr n) = some n := by decide

/-- No alphabet character is the padding character. -/
theorem b64chr_ne_pad : ∀ n < 64, b64chr n ≠ '=' := by decide

/-- Boolean form of `b64chr_ne_pad`. -/
theorem b64chr_beq_pad (n : Nat) (h : n < 64) : (b64chr n == '=') = false := by
  exact beq_eq_false_iff_ne.mpr (b64chr_ne_pad n h)

/-- Decoding inverts encoding on genuine byte sequences. -/
theorem base64_decode_encode :
    ∀ bs : List Nat, (∀ b ∈ bs, b < 256) →
      base64Decode (base64Encode bs) = some bs
  | [], _ => rfl
  | [b1], h => by
    have hb1 : b1 < 256 := h b1 (by simp)
    simp only [base64Encode, base64Decode]
    rw [if_pos (by decide)]
    rw [b64idx_b64chr _ (by omega), b64idx_b64chr _ (by omega)]
    simp only [Option.some.injEq, List.cons.injEq, and_true]
    omega
  | [b1, b2], h => by
    have hb1 : b1 < 256 := h b1 (by simp)
    have hb2 : b2 < 256 := h b2 (by simp)
    simp only [base64Encode, base64Decode]
    rw [if_neg (by simp [b64chr_beq_pad _ (show b2 % 16 * 4 < 64 by omega)])]
    rw [if_pos (by decide)]
    rw [b64idx_b64chr _ (by omega), b64idx_b64chr _ (by omega), b64idx_b64chr _ (by omega)]
    simp only [Option.some.injEq, List.cons.injEq, and_true]
    constructor <;> omega
  | b1 :: b2 :: b3 :: rest, h => by
    have hb1 : b1 < 256 := h b1 (by simp)
    have hb2 : b2 < 256 := h b2 (by simp)
    have hb3 : b3 < 256 := h b3 (by simp)
    have ih := base64_decode_encode rest (fun b hb => h b (by simp_all))
    simp only [base64Encode, base64Decode]
    rw [if_neg (by simp [b64chr_beq_pad _ (show b2 % 16 * 4 + b3 / 64 < 64 by omega)])]
    rw [if_neg (by simp [b64chr_beq_pad _ (show b3 % 64 < 64 by omega)])]
    rw [b64idx_b64chr _ (by omega), b64idx_b64chr _ (by omega),
      b64idx_b64chr _ (by omega), b64idx_b64chr _ (by omega)]
    rw [ih]
    simp only [Option.some.injEq, List.cons.injEq, and_true]
    refine ⟨by omega, by omega, by omega⟩

/-- Reading back a marshalled string array yields the original strings. -/
theorem jsonToStrings_stringsToJson (vs : List String) :
    jsonToStrings (stringsToJson vs) = some vs := by
  induction vs with
  | nil => rfl
  | cons v rest ih => simp [stringsToJson, jsonToStrings, ih] at *

/-- Reading back a marshalled header map yields the original headers. -/
theorem jsonToHeaders_headersToJson (hs : List (String × List String)) :
    jsonToHeaders (hs.map (fun p => (p.1, Json.arr (stringsToJson p.2)))) = some hs := by
  induction hs with
  | nil => rfl
  | cons p rest ih =>
    obtain ⟨k, v⟩ := p
    simp [jsonToHeaders, jsonToStrings_stringsToJson, ih]

/-- Unmarshalling inverts marshalling on a captured response whose body is a
genuine byte sequence. -/
theorem unmarshal_marshal (d : CachedResponseData)
    (h : ∀ b ∈ d.body, b < 256) :
    unmarshalCachedResponse (marshalCachedResponse d) = some d := by
  obtain ⟨status, headers, body, ts⟩ := d
  simp only [marshalCachedResponse, unmarshalCachedResponse, headersToJson, List.lookup]
  simp only [show ("status_code" == "headers") = false from by decide,
    show ("status_code" == "body") = false from by decide,
    show ("status_code" == "timestamp") = false from by decide,
    show ("headers" == "status_code") = false from by decide,
    show ("headers" == "body") = false from by decide,
    show ("headers" == "timestamp") = false from by decide,
    show ("body" == "status_code") = false from by decide,
    show ("body" == "headers") = false from by decide,
    show ("body" == "timestamp") = false from by decide,
    show ("timestamp" == "status_code") = false from by decide,
    show ("timestamp" == "headers") = false from by decide,
    show ("timestamp" == "body") = false from by decide,
    beq_self_eq_true]
  rw [jsonToHeaders_headersToJson]
  rw [base64_decode_encode body (by simpa using h)]

/-- Looking up a key in a list from which every binding of that key was
filtered out finds nothing. -/
theorem lookup_filter_self {α : Type} (key : String) (l : List (String × α)) :
    List.lookup key (List.filter (fun p => !(p.1 == key)) l) = none := by
  induction l with
  | nil => rfl
  | cons p rest ih =>
    obtain ⟨k, v⟩ := p
    by_cases hk : k = key
    · subst hk; simpa using ih
    · have h1 : (k == key) = false := beq_eq_false_iff_ne.mpr hk
      have h2 : (key == k) = false := beq_eq_false_iff_ne.mpr (Ne.symm hk)
      simp only [List.filter, h1, Bool.not_false, List.lookup, h2]
      exact ih

/-- After a `Reset`, the counter read back for the key is the empty one. -/
theorem storeGet_memoryReset (store : Store) (key : String) :
    storeGet (memoryReset store key).1 key = [] := by
  simp [storeGet, memoryReset, lookup_filter_self]

/-- Claim C1: on every in-process `Allow`, all timestamps older than
`now - window` are dropped by eviction, the call is allowed iff the count of
remaining timestamps is strictly below the limit, and
`remaining = max(0, limit - count - 1)` when allowed and
`max(0, limit - count)` when denied; and with limit 5 and a one-minute
window, five calls at t=0 succeed with remaining 4,3,2,1,0, a sixth call at
t=0 is denied, and a call at t=61s succeeds again. -/
theorem ratelimit_memory_allow_algorithm :
    (∀ (cfg : Config) (counter : List Int) (now : Int),
      (∀ t ∈ counter, t < now - cfg.window → t ∉ memoryValidRequests cfg counter now) ∧
      ((memoryLimiterAllow cfg counter now).allowed = true ↔
        ((memoryValidRequests cfg counter now).length : Int) < cfg.requests) ∧
      ((memoryLimiterAllow cfg counter now).result.remaining =
        if (memoryLimiterAllow cfg counter now).allowed = true then
          goMax 0 (cfg.requests - ((memoryValidRequests cfg counter now).length : Int) - 1)
        else goMax 0 (cfg.requests - ((memoryValidRequests cfg counter now).length : Int)))) ∧
    allowCalls scenarioConfig []
      [("k", 0), ("k", 0), ("k", 0), ("k", 0), ("k", 0), ("k", 0), ("k", 61)] =
      [(true, 4), (true, 3), (true, 2), (true, 1), (true, 0), (false, 0), (true, 4)] := by
  constructor
  · intro cfg counter now
    refine ⟨?_, ?_, ?_⟩
    · intro t ht hlt hmem
      have hd := List.mem_filter.mp hmem
      simp only [decide_eq_true_eq] at hd
      omega
    · simp [memoryLimiterAllow]
    · by_cases hA : ((memoryValidRequests cfg counter now).length : Int) < cfg.requests
      · have hd : decide (((memoryValidRequests cfg counter now).length : Int) < cfg.requests) = true :=
          decide_eq_true hA
        simp only [memoryLimiterAllow, hd, if_true, goMax, List.length_append,
          List.length_cons, List.length_nil, eq_self_iff_true]
        split_ifs <;> first | rfl | (push_cast; omega)
      · have hd : decide (((memoryValidRequests cfg counter now).length : Int) < cfg.requests) = false :=
          decide_eq_false hA
        simp only [memoryLimiterAllow, hd, if_false, goMax, Bool.false_eq_true]
  · decide

/-- Witness for C1 at a concrete input: a timestamp strictly older than the
window floor is dropped by eviction. -/
theorem ratelimit_memory_allow_algorithm_witness :
    (-100 : Int) ∉ memoryValidRequests scenarioConfig [-100] 0 :=
  (ratelimit_memory_allow_algorithm.1 scenarioConfig [-100] 0).1 (-100) (by decide) (by decide)

/-- Claim C2, counterexample: the Redis backend's denied `Allow` with entries
`[0]`, window 100 and now 10 returns `retryAfter = 100` (the full window),
not `oldest + window - now = 90` as the claim requires of every denied call. -/
theorem ratelimit_retryAfter_counterexample :
    (redisLimiterAllow testRedisConfig [0] 10).allowed = false ∧
    (redisLimiterAllow testRedisConfig [0] 10).result.retryAfter ≠
      0 + testRedisConfig.window - 10 := by decide

/-- Claim C2 as amended: for the in-process limiter a denied call's
`retryAfter` is `oldest + window - now` over the post-eviction timestamps and
the zero value 0 when none remain, while the remote limiter's `retryAfter` is
always the full window. -/
theorem ratelimit_retryAfter_amended :
    (∀ (cfg : Config) (counter : List Int) (now : Int),
      (memoryLimiterAllow cfg counter now).allowed = false →
      (memoryLimiterAllow cfg counter now).result.retryAfter =
        (if (memoryValidRequests cfg counter now).isEmpty then 0
         else (memoryValidRequests cfg counter now).headD 0 + cfg.window - now)) ∧
    (∀ (cfg : Config) (entries : List Int) (now : Int),
      (redisLimiterAllow cfg entries now).result.retryAfter = cfg.window) := by
  constructor
  · intro cfg counter now hdenied
    simp only [memoryLimiterAllow] at hdenied ⊢
    rcases hb : decide (((memoryValidRequests cfg counter now).length : Int) < cfg.requests) with _ | _
    · simp only [hb, if_false, Bool.false_eq_true, Bool.not_false, Bool.true_and]
      rcases hv : memoryValidRequests cfg counter now with _ | ⟨t, rest⟩
      · simp
      · simp
    · rw [hb] at hdenied; simp at hdenied
  · intro cfg entries now
    rfl

/-- Witness for the amended C2 at a concrete denied call of the in-process
limiter. -/
theorem ratelimit_retryAfter_amended_witness :
    (memoryLimiterAllow testRedisConfig [5] 10).result.retryAfter =
      (if (memoryValidRequests testRedisConfig [5] 10).isEmpty then 0
       else (memoryValidRequests testRedisConfig [5] 10).headD 0 +
         testRedisConfig.window - 10) :=
  ratelimit_retryAfter_amended.1 testRedisConfig [5] 10 (by decide)

/-- Claim C3: the claim (and the code's own warning log) says an unreachable
shared store leaves the in-process limiter in use, but `InitRedisService`
assigns the global instance before pinging, so `GetRedisService()` is never
nil afterwards and `NewHttpServer` selects the Redis-backed variant even when
the store is unreachable; the memory branch is unreachable altogether. -/
theorem server_limiter_selection_bug :
    selectLimiterKind none false = (LimiterKind.redis, some ()) ∧
    (∀ (inst : Option Unit) (reachable : Bool),
      (selectLimiterKind inst reachable).1 = LimiterKind.redis) := by
  refine ⟨rfl, ?_⟩
  intro inst reachable
  cases inst with
  | none => rfl
  | some u => cases u; rfl

/-- Claim C4, counterexample: a denied Redis-backend `Allow` still records
`now`: with entries `[0]`, limit 1, window 100 and now 10 the call is denied
yet 10 enters the sorted set, which eviction alone (`redisAfterRemove`) would
not have added. -/
theorem ratelimit_record_iff_allowed_counterexample :
    (redisLimiterAllow testRedisConfig [0] 10).allowed = false ∧
    (10 : Int) ∈ (redisLimiterAllow testRedisConfig [0] 10).counter ∧
    (10 : Int) ∉ redisAfterRemove testRedisConfig [0] 10 := by decide

/-- Claim C4 as amended: the in-process backend records `now` iff the call is
allowed (a denied call leaves exactly the post-eviction counter), while the
remote backend records `now` on every call, allowed or denied. -/
theorem ratelimit_record_iff_allowed_amended :
    (∀ (cfg : Config) (counter : List Int) (now : Int),
      (memoryLimiterAllow cfg counter now).counter =
        (if (memoryLimiterAllow cfg counter now).allowed = true then
          memoryValidRequests cfg counter now ++ [now]
        else memoryValidRequests cfg counter now)) ∧
    (∀ (cfg : Config) (entries : List Int) (now : Int),
      now ∈ (redisLimiterAllow cfg entries now).counter) := by
  constructor
  · intro cfg counter now
    simp only [memoryLimiterAllow]
  · intro cfg entries now
    simp only [redisLimiterAllow]
    rcases hc : (redisAfterRemove cfg entries now).contains now with _ | _
    · simp [hc]
    · simp only [hc, if_true]
      exact List.mem_of_elem_eq_true hc

/-- Claim C5: assuming a monotone clock (every stored timestamp is at most
the previous read instant, which is at most `now`) and a nonnegative window,
a sorted counter stays sorted through `Allow` and every timestamp it then
holds lies within `[now - window, now]`; `Reset` leaves the empty counter. -/
theorem ratelimit_window_counter_invariant :
    (∀ (cfg : Config) (counter : List Int) (now0 now : Int),
      List.Sorted (· ≤ ·) counter →
      (∀ t ∈ counter, t ≤ now0) →
      now0 ≤ now → 0 ≤ cfg.window →
      List.Sorted (· ≤ ·) (memoryLimiterAllow cfg counter now).counter ∧
      (∀ t ∈ (memoryLimiterAllow cfg counter now).counter,
        now - cfg.window ≤ t ∧ t ≤ now)) ∧
    (∀ (store : Store) (key : String),
      storeGet (memoryReset store key).1 key = []) := by
  constructor
  · intro cfg counter now0 now hsorted hub h0 hw
    have hvsub : ∀ t ∈ memoryValidRequests cfg counter now, t ∈ counter :=
      fun t ht => List.mem_of_mem_filter ht
    have hvin : ∀ t ∈ memoryValidRequests cfg counter now, now - cfg.window < t := by
      intro t ht
      have hf := (List.mem_filter.mp ht).2
      simpa using hf
    have hvsorted : List.Sorted (· ≤ ·) (memoryValidRequests cfg counter now) :=
      List.Pairwise.filter _ hsorted
    simp only [memoryLimiterAllow]
    rcases hb : decide (((memoryValidRequests cfg counter now).length : Int) < cfg.requests)
      with _ | _
    · simp only [Bool.false_eq_true, if_false]
      refine ⟨hvsorted, fun t ht => ⟨le_of_lt (hvin t ht), le_trans (hub t (hvsub t ht)) h0⟩⟩
    · simp only [if_true]
      constructor
      · refine List.pairwise_append.mpr ⟨hvsorted, List.pairwise_singleton _ _, ?_⟩
        intro a ha b hbm
        have hb1 : b = now := by simpa using hbm
        subst hb1
        exact le_trans (hub a (hvsub a ha)) h0
      · intro t ht
        rcases List.mem_append.mp ht with hvl | hnow
        · exact ⟨le_of_lt (hvin t hvl), le_trans (hub t (hvsub t hvl)) h0⟩
        · have ht1 : t = now := by simpa using hnow
          subst ht1
          omega
  · intro store key
    exact storeGet_memoryReset store key

/-- Witness for C5 at a concrete counter and clock. -/
theorem ratelimit_window_counter_invariant_witness :
    List.Sorted (· ≤ ·) (memoryLimiterAllow scenarioConfig [0] 10).counter ∧
    (∀ t ∈ (memoryLimiterAllow scenarioConfig [0] 10).counter,
      10 - scenarioConfig.window ≤ t ∧ t ≤ 10) :=
  ratelimit_window_counter_invariant.1 scenarioConfig [0] 0 10 (by simp) (by decide)
    (by decide) (by decide)

/-- Claim C6: a limiter error makes the rate-limit middleware forward the
downstream response unchanged (fail-open); a cache lookup error makes the
cache middleware serve the downstream handler's response exactly as on a
miss; and a cache store error never alters the response being sent. -/
theorem middleware_failures_do_not_surface :
    (∀ (cfg : Config) (r : Request) (e : String) (downstream : RLResponse),
      (Middleware cfg r (Except.error e) downstream).1 = downstream) ∧
    (∀ (config : CacheMiddlewareConfig) (kb : Request → String) (store : CacheStore)
      (r : Request) (storeErr : Bool) (handler : HttpResponse) (now : Int),
      (CacheMiddlewareRun config kb store r true storeErr handler now).1 = handler) ∧
    (∀ (config : CacheMiddlewareConfig) (kb : Request → String) (store : CacheStore)
      (r : Request) (lookupErr : Bool) (handler : HttpResponse) (now : Int),
      (CacheMiddlewareRun config kb store r lookupErr true handler now).1 =
        (CacheMiddlewareRun config kb store r lookupErr false handler now).1) := by
  refine ⟨?_, ?_, ?_⟩
  · intro cfg r e downstream
    by_cases hs : shouldSkip r cfg <;> simp [Middleware, hs]
  · intro config kb store r storeErr handler now
    simp only [CacheMiddlewareRun, if_true]
    split_ifs <;> rfl
  · intro config kb store r lookupErr handler now
    simp only [CacheMiddlewareRun]
    by_cases hsc : shouldCache r (normalizeConfig config)
    · simp only [hsc, Bool.not_true, Bool.false_eq_true, if_false]
      rcases hle : (if lookupErr then none else getCachedResponse store (kb r)) with _ | c
      · simp only [hle]
        split_ifs <;> rfl
      · simp only [hle]
    · simp [hsc]

/-- Claim C7: under the default cache-middleware configuration, a request
with a non-empty `Authorization` header falls straight through — it is never
served from the cache and the store is left untouched — whatever the method,
path, cache state, key function or injected backend faults. -/
theorem cache_auth_requests_bypass :
    ∀ (kb : Request → String) (store : CacheStore) (r : Request)
      (lookupErr storeErr : Bool) (handler : HttpResponse) (now : Int),
      headerGet r.headers "Authorization" ≠ "" →
      CacheMiddlewareRun DefaultCacheMiddlewareConfig kb store r lookupErr storeErr
        handler now = (handler, store, CacheOutcome.passthrough) := by
  intro kb store r le se handler now hauth
  have hskipfn : SkipAuthenticatedRequests r = true := by
    simp [SkipAuthenticatedRequests, bne_iff_ne, hauth]
  have hsc : shouldCache r (normalizeConfig DefaultCacheMiddlewareConfig) = false := by
    simp only [shouldCache, normalizeConfig, DefaultCacheMiddlewareConfig]
    simp only [List.isEmpty_cons, if_false, List.any_cons, List.any_nil, hskipfn,
      Bool.true_or, Bool.or_false, Bool.or_true]
    split_ifs <;> rfl
  simp only [CacheMiddlewareRun, hsc, Bool.not_false, if_true]

/-- Witness for C7 at a concrete authenticated request. -/
theorem cache_auth_requests_bypass_witness :
    CacheMiddlewareRun DefaultCacheMiddlewareConfig (fun _ => "k") [] authedRequest
      false false okResponse 0 = (okResponse, [], CacheOutcome.passthrough) :=
  cache_auth_requests_bypass (fun _ => "k") [] authedRequest false false okResponse 0
    (by decide)

/-- Claim C8: storing a captured response under a key (marshal and set) and
then looking the key up (get and unmarshal) returns the stored response with
identical status, headers and body, for every store, key and response whose
body is a genuine byte sequence. -/
theorem cache_store_lookup_roundtrip :
    ∀ (store : CacheStore) (key : String) (d : CachedResponseData),
      (∀ b ∈ d.body, b < 256) →
      getCachedResponse (cacheResponse store key d) key = some d := by
  intro store key d h
  simp only [getCachedResponse, cacheResponse, List.lookup, beq_self_eq_true]
  exact unmarshal_marshal d h

/-- Witness for C8 at a concrete captured response. -/
theorem cache_store_lookup_roundtrip_witness :
    getCachedResponse (cacheResponse [] "http:GET:/items:0a1b2c3d" sampleCachedResponse)
      "http:GET:/items:0a1b2c3d" = some sampleCachedResponse :=
  cache_store_lookup_roundtrip [] "http:GET:/items:0a1b2c3d" sampleCachedResponse
    (by decide)

/-- Claim C9, counterexample: with `Requests = 0` (a configuration the
constructors accept), `Reset` followed immediately by `Allow` is denied, so
the claim's unconditional "always returns allowed=true" fails. -/
theorem ratelimit_reset_allow_counterexample :
    (memoryAllow zeroConfig (memoryReset [("k", [0])] "k").1 "k" 0).1.allowed = false := by
  decide

/-- Claim C9 as amended: `Reset` is idempotent, and `Reset` followed
immediately by `Allow` returns allowed=true for every prior call history
whenever the configured limit is positive. -/
theorem ratelimit_reset_idempotent_allow_amended :
    (∀ (store : Store) (key : String),
      memoryReset (memoryReset store key).1 key = memoryReset store key) ∧
    (∀ (cfg : Config) (store : Store) (key : String) (now : Int),
      0 < cfg.requests →
      (memoryAllow cfg (memoryReset store key).1 key now).1.allowed = true) := by
  constructor
  · intro store key
    simp only [memoryReset, List.filter_filter, Bool.and_self]
  · intro cfg store key now hreq
    simp only [memoryAllow, storeGet_memoryReset, memoryLimiterAllow,
      memoryValidRequests, List.filter_nil, List.length_nil]
    simpa using hreq

/-- Witness for the amended C9 after a saturated history. -/
theorem ratelimit_reset_idempotent_allow_amended_witness :
    (memoryAllow scenarioConfig (memoryReset [("k", [0, 0, 0, 0, 0])] "k").1 "k" 0).1.allowed
      = true :=
  ratelimit_reset_idempotent_allow_amended.2 scenarioConfig [("k", [0, 0, 0, 0, 0])] "k" 0
    (by decide)

/-- Claim C10: the in-process limiter's `Allow` and `Reset` return a nil
error for every input, so the middleware's fail-open branch is never taken
when the memory backend is plugged in. -/
theorem ratelimit_memory_never_errors :
    (∀ (cfg : Config) (store : Store) (key : String) (now : Int),
      (memoryAllow cfg store key now).1.error = none) ∧
    (∀ (store : Store) (key : String), (memoryReset store key).2 = none) ∧
    (∀ (cfg : Config) (r : Request) (store : Store) (key : String) (now : Int)
      (downstream : RLResponse),
      (Middleware cfg r (memoryAllowExcept cfg store key now) downstream).2 ≠
        MWOutcome.failOpen) := by
  refine ⟨fun _ _ _ _ => rfl, fun _ _ => rfl, ?_⟩
  intro cfg r store key now downstream
  have hex : memoryAllowExcept cfg store key now =
      Except.ok ((memoryAllow cfg store key now).1.allowed,
        (memoryAllow cfg store key now).1.result) := rfl
  by_cases hs : shouldSkip r cfg
  · simp [Middleware, hs]
  · simp only [Middleware, hs, if_false, hex, Bool.false_eq_true]
    split_ifs <;> simp

/-- Witness for C10: a concrete run through the middleware with the memory
backend does not land in the fail-open branch. -/
theorem ratelimit_memory_never_errors_witness :
    (Middleware scenarioConfig ⟨"GET", "/x", "", []⟩
      (memoryAllowExcept scenarioConfig [] "k" 0) ⟨200, [], ""⟩).2 ≠
      MWOutcome.failOpen :=
  ratelimit_memory_never_errors.2.2 scenarioConfig ⟨"GET", "/x", "", []⟩ [] "k" 0 ⟨200, [], ""⟩

end GoTemplate
